/-
Verification of the pylossless usage tutorial (docs/examples/usage.py).

The repository excerpt is a linear tutorial script that orchestrates external
collaborators (a configuration object, a dataset downloader, MNE readers, a
pipeline object, and a BIDS conversion helper).  We embed:

  * a character-level model of the delimited tabular files produced by
    pandas to_csv / read_csv for the parameter-record tables;
  * a YAML-like key-value model of the configuration file, modelled from the
    spec (the Config class itself is not part of the excerpt);
  * the script body and the import callback as explicit traces of the calls
    they perform, in source order;
  * the import callback egi_import_fct as a function over abstract MNE
    collaborators;
  * the described behaviour of run_dataset and convert_dataset_to_bids,
    modelled from the spec and the tutorial prose.
-/
import Mathlib

namespace PyLossless

/-! ### Delimited tabular files (parameter-record tables)

The script stores parameter records (import_args, bids_path_args) as lists of
key-value dictionaries and exchanges them with CSV files through pandas
DataFrame(...).to_csv and pd.read_csv(...).T.to_dict().values().  We model a
field as a list of characters, a file as a list of characters with rows
separated by a newline and fields by a comma. -/

abbrev Field := List Char

/-- A parameter record: an ordered list of key-value pairs, as a Python dict
with insertion order. -/
abbrev ParamRecord := List (Field × Field)

/-- One CSV row: the fields joined by commas. -/
def encodeRow (row : List Field) : List Char :=
  List.intercalate [','] row

/-- A CSV file: the rows joined by newlines. -/
def writeTable (t : List (List Field)) : List Char :=
  List.intercalate ['\n'] (t.map encodeRow)

/-- Parse a CSV file back into rows of fields. -/
def readTable (s : List Char) : List (List Field) :=
  (s.splitOn '\n').map (fun line => line.splitOn ',')

/-- Modelled from the spec: pandas DataFrame(records).to_csv writes a header
row holding the shared keys of the records followed by one row of values per
record ("two parameter-record tables ... represented as ordered collections
of key-value records, interchangeable with a delimited tabular file").
pandas itself is an external collaborator, not part of the excerpt. -/
def writeRecords (recs : List ParamRecord) : List Char :=
  match recs with
  | [] => []
  | r :: _ => writeTable ((r.map Prod.fst) :: recs.map (fun rec => rec.map Prod.snd))

/-- Modelled from the spec: pd.read_csv(...).T.to_dict().values() reads the
header row as the record keys and yields one key-value record per remaining
row, in file order. -/
def readRecords (s : List Char) : List ParamRecord :=
  match readTable s with
  | [] => []
  | header :: rows => rows.map (fun row => header.zip row)

/-- A character distinct from the separator and absent from every chunk is
absent from the interleaving of the chunks with the separator. -/
theorem not_mem_intercalate_single {c sep : Char} {xs : List (List Char)}
    (hne : c ≠ sep) (h : ∀ l ∈ xs, c ∉ l) :
    c ∉ List.intercalate [sep] xs := by
  induction xs with
  | nil => simp [List.intercalate]
  | cons x xs ih =>
    cases xs with
    | nil =>
      simpa [List.intercalate] using h x (by simp)
    | cons y ys =>
      intro hc
      rw [List.intercalate, List.intersperse_cons_cons, List.flatten_cons,
        List.flatten_cons] at hc
      rcases List.mem_append.mp hc with hx | hrest
      · exact h x (by simp) hx
      rcases List.mem_append.mp hrest with hs | htail
      · exact hne (by simpa using hs)
      · exact ih (fun l hl => h l (List.mem_cons_of_mem _ hl))
          (by rw [List.intercalate]; exact htail)

/-- Reading a written CSV table recovers the rows exactly, provided the table
is nonempty, every row is nonempty, and no field contains a comma or a
newline. -/
theorem readTable_writeTable (t : List (List Field))
    (hne : t ≠ [])
    (hrow : ∀ row ∈ t, row ≠ [])
    (hcomma : ∀ row ∈ t, ∀ f ∈ row, ',' ∉ f)
    (hnl : ∀ row ∈ t, ∀ f ∈ row, '\n' ∉ f) :
    readTable (writeTable t) = t := by
  unfold readTable writeTable
  rw [List.splitOn_intercalate (t.map encodeRow) '\n'
    (by
      intro l hl
      rcases List.mem_map.mp hl with ⟨row, hrowmem, rfl⟩
      exact not_mem_intercalate_single (by decide)
        (fun f hf => hnl row hrowmem f hf))
    (by simpa using hne)]
  rw [List.map_map]
  conv_rhs => rw [(List.map_id t).symm]
  refine List.map_congr_left ?_
  intro row hrowmem
  simp only [Function.comp_apply, encodeRow, List.map_id]
  exact List.splitOn_intercalate row ','
    (fun f hf => hcomma row hrowmem f hf) (hrow row hrowmem)

/-- The keys of a record are nonempty exactly when the record is. -/
theorem record_ne_nil_of_keys {r : ParamRecord} {keys : List Field}
    (hk : r.map Prod.fst = keys) (hkne : keys ≠ []) : r ≠ [] := by
  intro h0
  rw [h0] at hk
  exact hkne hk.symm

/-- Writing a nonempty list of uniform-key records to a delimited file and
reading it back recovers the records exactly, provided the shared key list is
nonempty and no key or value contains a comma or a newline. -/
theorem readRecords_writeRecords (recs : List ParamRecord) (keys : List Field)
    (hne : recs ≠ [])
    (hkne : keys ≠ [])
    (hkeys : ∀ r ∈ recs, r.map Prod.fst = keys)
    (hchars : ∀ r ∈ recs, ∀ kv ∈ r,
      ',' ∉ kv.1 ∧ '\n' ∉ kv.1 ∧ ',' ∉ kv.2 ∧ '\n' ∉ kv.2) :
    readRecords (writeRecords recs) = recs := by
  obtain ⟨r0, rest, rfl⟩ : ∃ a l, recs = a :: l := by
    cases recs with
    | nil => exact absurd rfl hne
    | cons a l => exact ⟨a, l, rfl⟩
  have hr0 : r0 ∈ r0 :: rest := by simp
  have hT : readTable (writeTable
      ((r0.map Prod.fst) :: (r0 :: rest).map (fun rec => rec.map Prod.snd))) =
      (r0.map Prod.fst) :: (r0 :: rest).map (fun rec => rec.map Prod.snd) := by
    refine readTable_writeTable _ (by simp) ?_ ?_ ?_
    · intro row hrowmem
      rcases List.mem_cons.mp hrowmem with rfl | hrowmem
      · intro h0
        exact hkne ((hkeys r0 hr0).symm.trans (by rw [h0]))
      · rcases List.mem_map.mp hrowmem with ⟨rec, hrec, rfl⟩
        have : rec ≠ [] := record_ne_nil_of_keys (hkeys rec hrec) hkne
        simpa using this
    · intro row hrowmem f hf
      rcases List.mem_cons.mp hrowmem with rfl | hrowmem
      · rcases List.mem_map.mp hf with ⟨kv, hkv, rfl⟩
        exact (hchars r0 hr0 kv hkv).1
      · rcases List.mem_map.mp hrowmem with ⟨rec, hrec, rfl⟩
        rcases List.mem_map.mp hf with ⟨kv, hkv, rfl⟩
        exact (hchars rec hrec kv hkv).2.2.1
    · intro row hrowmem f hf
      rcases List.mem_cons.mp hrowmem with rfl | hrowmem
      · rcases List.mem_map.mp hf with ⟨kv, hkv, rfl⟩
        exact (hchars r0 hr0 kv hkv).2.1
      · rcases List.mem_map.mp hrowmem with ⟨rec, hrec, rfl⟩
        rcases List.mem_map.mp hf with ⟨kv, hkv, rfl⟩
        exact (hchars rec hrec kv hkv).2.2.2
  unfold writeRecords readRecords
  rw [hT]
  simp only [List.map_map]
  conv_rhs => rw [(List.map_id (r0 :: rest)).symm]
  refine List.map_congr_left ?_
  intro rec hrec
  have hzip : (r0.map Prod.fst).zip (rec.map Prod.snd) = rec := by
    rw [hkeys r0 hr0, (hkeys rec hrec).symm, List.zip_map']
    simp
  simpa using hzip

/-- The import_args records of the script (usage.py lines 119-120). -/
def importArgsRecords : List ParamRecord :=
  [[("stim_channel".toList, "STI 014".toList),
    ("path_in".toList, "./sub-s004-ses_07_task-MMN_20220218_022348.mff".toList)],
   [("stim_channel".toList, "STI 014".toList),
    ("path_in".toList, "./sub-s004-ses_07_task-MMN_20220218_022348.mff".toList)]]

/-- The bids_path_args records of the script (usage.py lines 122-123). -/
def bidsPathArgsRecords : List ParamRecord :=
  [[("subject".toList, "001".toList), ("run".toList, "01".toList),
    ("session".toList, "01".toList), ("task".toList, "mmn".toList)],
   [("subject".toList, "002".toList), ("run".toList, "01".toList),
    ("session".toList, "01".toList), ("task".toList, "mmn".toList)]]

/-- C1: for every ordered collection of key-value parameter records (such
as the import_args or bids_path_args tables), writing the records to a delimited tabular
file and reading them back yields an equivalent ordered collection of
records: the lists are equal, hence have the same number of records, the same
keys, equal values, in the same order.  The hypotheses delimit the domain on
which the tabular format is faithful: at least one record, a shared nonempty
key list, and no comma or newline inside a key or value. -/
theorem csv_record_roundtrip (recs : List ParamRecord) (keys : List Field)
    (hne : recs ≠ [])
    (hkne : keys ≠ [])
    (hkeys : ∀ r ∈ recs, r.map Prod.fst = keys)
    (hchars : ∀ r ∈ recs, ∀ kv ∈ r,
      ',' ∉ kv.1 ∧ '\n' ∉ kv.1 ∧ ',' ∉ kv.2 ∧ '\n' ∉ kv.2) :
    readRecords (writeRecords recs) = recs :=
  readRecords_writeRecords recs keys hne hkne hkeys hchars

/-- Witness for C1: the round-trip law evaluated on the script's own table
of import arguments. -/
theorem csv_record_roundtrip_witness :
    readRecords (writeRecords importArgsRecords) = importArgsRecords :=
  csv_record_roundtrip importArgsRecords
    ["stim_channel".toList, "path_in".toList]
    (by decide) (by decide) (by decide) (by decide)

/-! ### The configuration object

The Config class (ll.config.Config with load_default, print, save, and
construction of a pipeline from the saved file) is not part of the excerpt;
the spec describes it as "a configuration object (opaque, loaded/saved as a
file, printable)" persisted to "a YAML-like configuration file
(load/save/print)". -/

/-- Modelled from the spec: a configuration object, an ordered collection of
key-value entries, persisted to a YAML-like file of key-colon-value lines.
The Config class itself is missing from the excerpt. -/
structure Config where
  entries : List (Field × Field)
  deriving DecidableEq, Repr

/-- Modelled from the spec: Config.save writes one key-colon-value line per
entry to the YAML-like file. -/
def Config.save (c : Config) : List Char :=
  List.intercalate ['\n'] (c.entries.map (fun kv => kv.1 ++ ':' :: kv.2))

/-- Parse one YAML-like line: the key is the text before the first colon, the
value everything after it. -/
def parseLine (line : List Char) : Field × Field :=
  match line.splitOn ':' with
  | [] => ([], [])
  | k :: rest => (k, List.intercalate [':'] rest)

/-- Modelled from the spec: Config.load reads the YAML-like file back, one
entry per line. -/
def Config.load (s : List Char) : Config :=
  ⟨(s.splitOn '\n').map parseLine⟩

/-- Parsing an encoded key-colon-value line recovers the entry, provided the
key contains no colon and neither side contains a newline.  The value may
contain colons: only the first colon of the line splits. -/
theorem parseLine_encode (k v : Field) (hk : ':' ∉ k) :
    parseLine (k ++ ':' :: v) = (k, v) := by
  unfold parseLine
  have hsplit : (k ++ ':' :: v).splitOn ':' = k :: v.splitOn ':' := by
    unfold List.splitOn
    exact List.splitOnP_first (fun c => c == ':') k
      (fun x hx => by
        simp only [beq_iff_eq]
        intro he
        exact hk (he ▸ hx)) ':' (by simp) v
  rw [hsplit]
  show (k, [':'].intercalate (v.splitOn ':')) = (k, v)
  rw [List.intercalate_splitOn v ':']

/-- C2: saving a configuration to the configuration file and loading the file
back yields an equal configuration, provided the configuration has at least
one entry, keys contain no colon or newline, and values contain no
newline. -/
theorem config_save_load_roundtrip (c : Config)
    (hne : c.entries ≠ [])
    (hkeys : ∀ kv ∈ c.entries, ':' ∉ kv.1 ∧ '\n' ∉ kv.1)
    (hvals : ∀ kv ∈ c.entries, '\n' ∉ kv.2) :
    Config.load (Config.save c) = c := by
  unfold Config.load Config.save
  rw [List.splitOn_intercalate (c.entries.map (fun kv => kv.1 ++ ':' :: kv.2)) '\n'
    (by
      intro l hl
      rcases List.mem_map.mp hl with ⟨kv, hkv, rfl⟩
      intro hmem
      rcases List.mem_append.mp hmem with hmk | hmv
      · exact (hkeys kv hkv).2 hmk
      rcases List.mem_cons.mp hmv with hcolon | hmv
      · exact absurd hcolon (by decide)
      · exact hvals kv hkv hmv)
    (by simpa using hne)]
  rw [List.map_map]
  have : ∀ kv ∈ c.entries, (parseLine ∘ fun kv => kv.1 ++ ':' :: kv.2) kv = id kv := by
    intro kv hkv
    simp only [Function.comp_apply, id]
    rw [parseLine_encode kv.1 kv.2 (hkeys kv hkv).1]
  rw [List.map_congr_left this, List.map_id]

/-- Witness for C2: the round-trip law evaluated on a concrete configuration
with YAML-like entries. -/
theorem config_save_load_roundtrip_witness :
    Config.load (Config.save ⟨[("filtering".toList, " on".toList),
      ("out_dir".toList, " derivatives/pylossless".toList)]⟩) =
    ⟨[("filtering".toList, " on".toList),
      ("out_dir".toList, " derivatives/pylossless".toList)]⟩ :=
  config_save_load_roundtrip
    ⟨[("filtering".toList, " on".toList),
      ("out_dir".toList, " derivatives/pylossless".toList)]⟩
    (by decide) (by decide) (by decide)

/-! ### The script body and the import callback as traces

usage.py is a linear module script.  We embed the calls it performs, in
source order, as an explicit trace.  The action type also provides
concurrency primitives (thread spawn, task suspension, task cancellation)
so that their absence from the traces is a statement, not a typing
accident. -/

/-- One call performed by the script or by the import callback, in the
vocabulary of usage.py.  The last three constructors are concurrency
primitives that the excerpt never uses. -/
inductive Act where
  | configInit
  | configLoadDefault
  | configPrint
  | configSave
  | sampleDataPath
  | mkBidsRoot
  | datasetDownload
  | bidsPathConstruct
  | readRawBids
  | pipelineConstruct
  | pipelineRun
  | pipelineRunDataset
  | convertDatasetToBids
  | csvWriteImportArgs
  | csvWriteBidsPathArgs
  | csvReadImportArgs
  | csvReadBidsPathArgs
  | readRawEgi (preload : Bool)
  | findEvents
  | readEventId
  | tempDirEnter
  | saveToTempFif
  | readTempFif (preload : Bool)
  | tempDirExit
  | pickTypes
  | renameChannels
  | threadSpawn
  | taskAwait
  | taskCancel
  deriving DecidableEq, Repr

/-- The calls of the module script body, in source order
(usage.py lines 27-141). -/
def scriptTrace : List Act :=
  [Act.configInit,            -- line 27
   Act.configLoadDefault,     -- line 28
   Act.configPrint,           -- line 29
   Act.configSave,            -- line 30
   Act.sampleDataPath,        -- line 45
   Act.mkBidsRoot,            -- line 46
   Act.datasetDownload,       -- line 48
   Act.bidsPathConstruct,     -- line 59
   Act.readRawBids,           -- line 61
   Act.pipelineConstruct,     -- line 67
   Act.pipelineRun,           -- line 68
   Act.pipelineRunDataset,    -- line 75
   Act.convertDatasetToBids,  -- line 125
   Act.csvWriteImportArgs,    -- line 132
   Act.csvWriteBidsPathArgs,  -- line 133
   Act.csvReadImportArgs,     -- line 138
   Act.csvReadBidsPathArgs,   -- line 139
   Act.convertDatasetToBids,  -- line 140
   Act.pipelineRunDataset]    -- line 141

/-- The calls of the import callback egi_import_fct, in source order
(usage.py lines 95-115). -/
def egiImportTrace : List Act :=
  [Act.readRawEgi true,       -- line 98
   Act.findEvents,            -- line 101
   Act.readEventId,           -- line 102
   Act.tempDirEnter,          -- line 105
   Act.saveToTempFif,         -- line 106
   Act.readTempFif true,      -- line 109
   Act.tempDirExit,           -- end of the with block
   Act.pickTypes,             -- line 112
   Act.renameChannels]        -- line 113

/-- An action is synchronous unless it is one of the concurrency
primitives. -/
def Act.isSync : Act → Bool
  | Act.threadSpawn => false
  | Act.taskAwait => false
  | Act.taskCancel => false
  | _ => true

/-- An action reads or writes the file inside the temporary directory. -/
def Act.usesTempDir : Act → Bool
  | Act.saveToTempFif => true
  | Act.readTempFif _ => true
  | _ => false

/-- C4: the script performs its steps in a fixed linear order: the
configuration is built from the default template and saved before the
dataset download; the dataset-path descriptor is built and the recording
loaded before the pipeline is constructed; and the pipeline is constructed
before run is called. -/
theorem script_linear_order :
    Act.configInit ∈ scriptTrace ∧
    Act.configLoadDefault ∈ scriptTrace ∧
    Act.configSave ∈ scriptTrace ∧
    Act.datasetDownload ∈ scriptTrace ∧
    Act.bidsPathConstruct ∈ scriptTrace ∧
    Act.readRawBids ∈ scriptTrace ∧
    Act.pipelineConstruct ∈ scriptTrace ∧
    Act.pipelineRun ∈ scriptTrace ∧
    scriptTrace.indexOf Act.configInit < scriptTrace.indexOf Act.configLoadDefault ∧
    scriptTrace.indexOf Act.configLoadDefault < scriptTrace.indexOf Act.configSave ∧
    scriptTrace.indexOf Act.configSave < scriptTrace.indexOf Act.datasetDownload ∧
    scriptTrace.indexOf Act.datasetDownload < scriptTrace.indexOf Act.bidsPathConstruct ∧
    scriptTrace.indexOf Act.bidsPathConstruct < scriptTrace.indexOf Act.readRawBids ∧
    scriptTrace.indexOf Act.readRawBids < scriptTrace.indexOf Act.pipelineConstruct ∧
    scriptTrace.indexOf Act.pipelineConstruct < scriptTrace.indexOf Act.pipelineRun := by
  decide

/-- C5: inside the import callback the temporary directory is released
exactly once, every access to the temporary file happens before the release,
the reload from the temporary file asks for a full in-memory load
(preload set), and nothing after the release touches the temporary
directory. -/
theorem tempdir_scope_safety :
    egiImportTrace.count Act.tempDirExit = 1 ∧
    Act.readTempFif true ∈ egiImportTrace ∧
    Act.readTempFif false ∉ egiImportTrace ∧
    egiImportTrace.indexOf (Act.readTempFif true) <
      egiImportTrace.indexOf Act.tempDirExit ∧
    (∀ a ∈ egiImportTrace.drop (egiImportTrace.indexOf Act.tempDirExit + 1),
      a.usesTempDir = false) ∧
    (∀ a ∈ egiImportTrace, a.usesTempDir = true →
      egiImportTrace.indexOf a < egiImportTrace.indexOf Act.tempDirExit) := by
  decide

/-- C6: every call of the script body and of the import callback is
synchronous; no concurrency, suspension, or cancellation primitive occurs
in either trace. -/
theorem script_single_threaded :
    (∀ a ∈ scriptTrace, a.isSync = true) ∧
    (∀ a ∈ egiImportTrace, a.isSync = true) := by
  decide

/-! ### Failure propagation

The script installs no try/except, retry, or rollback anywhere, so its
semantics under fallible collaborators is plain sequencing: execute each
call in order, stop at the first raised exception and surface it
unchanged. -/

/-- Run a straight-line trace against an effect interpretation of each call.
Returns the calls actually executed and, when one of them raised, the
propagated error.  This is the semantics of a Python module script with no
exception handler: each statement runs once, in order, until the first
raise. -/
def runScript {E : Type} (eff : Act → Except E Unit) : List Act → List Act × Option E
  | [] => ([], none)
  | a :: rest =>
    match eff a with
    | Except.error e => ([a], some e)
    | Except.ok _ =>
      let r := runScript eff rest
      (a :: r.1, r.2)

/-- Sequencing a trace whose prefix succeeds and whose next call raises
executes exactly the prefix and the failing call once, and surfaces that
error unchanged. -/
theorem runScript_first_error {E : Type} (eff : Act → Except E Unit)
    (a : Act) (e : E) (post : List Act) :
    ∀ pre : List Act, (∀ t ∈ pre, eff t = Except.ok ()) →
      eff a = Except.error e →
      runScript eff (pre ++ a :: post) = (pre ++ [a], some e) := by
  intro pre
  induction pre with
  | nil =>
    intro _ ha
    simp [runScript, ha]
  | cons t ts ih =>
    intro hpre ha
    have ht : eff t = Except.ok () := hpre t (by simp)
    simp only [List.cons_append, runScript, ht, List.append_eq]
    rw [ih (fun u hu => hpre u (List.mem_cons_of_mem _ hu)) ha]

/-- C7: the script has no error handling, retry, or recovery logic.  If every
call before some call of the script succeeds and that call raises, the whole
script raises that very error: the executed calls are exactly the successful
prefix followed by one execution of the failing call (no retry), nothing
after it runs, and the error object reaching the caller is unchanged. -/
theorem script_error_propagation {E : Type} (eff : Act → Except E Unit)
    (pre post : List Act) (a : Act) (e : E)
    (hsplit : scriptTrace = pre ++ a :: post)
    (hpre : ∀ t ∈ pre, eff t = Except.ok ())
    (ha : eff a = Except.error e) :
    runScript eff scriptTrace = (pre ++ [a], some e) := by
  rw [hsplit]
  exact runScript_first_error eff a e post pre hpre ha

/-- Witness for C7: a download failure on line 48 aborts the script after the
six preceding calls and surfaces the error object unchanged. -/
theorem script_error_propagation_witness :
    runScript
      (fun t => if t = Act.datasetDownload
        then Except.error "ConnectionError" else Except.ok ())
      scriptTrace =
    ([Act.configInit, Act.configLoadDefault, Act.configPrint, Act.configSave,
      Act.sampleDataPath, Act.mkBidsRoot, Act.datasetDownload],
      some "ConnectionError") :=
  script_error_propagation
    (fun t => if t = Act.datasetDownload
      then Except.error "ConnectionError" else Except.ok ())
    [Act.configInit, Act.configLoadDefault, Act.configPrint, Act.configSave,
      Act.sampleDataPath, Act.mkBidsRoot]
    [Act.bidsPathConstruct, Act.readRawBids, Act.pipelineConstruct,
      Act.pipelineRun, Act.pipelineRunDataset, Act.convertDatasetToBids,
      Act.csvWriteImportArgs, Act.csvWriteBidsPathArgs, Act.csvReadImportArgs,
      Act.csvReadBidsPathArgs, Act.convertDatasetToBids, Act.pipelineRunDataset]
    Act.datasetDownload "ConnectionError"
    (by decide) (by intro t ht; fin_cases ht <;> rfl) rfl

/-! ### The import callback egi_import_fct as a function

Recordings are modelled as a channel list plus the event-related data that
the callback reads.  The external MNE reader read_raw_egi and the event
scanner find_events are uninterpreted collaborators (fields of MneApi); the
channel-level operations the callback applies (pick_types, rename_channels)
and the fif save/reload round-trip are modelled by their documented
effect. -/

/-- One channel of a recording: its name and its sensor type flags. -/
structure Channel where
  name : String
  isEEG : Bool
  isStim : Bool
  deriving DecidableEq, Repr

/-- A raw recording as the callback observes it: channels, whether the data
sits fully in memory, and the event_id mapping carried by the EGI reader. -/
structure RawData where
  chs : List Channel
  preloaded : Bool
  event_id : List (String × Nat)
  deriving DecidableEq, Repr

/-- The external MNE collaborators the callback calls: the EGI reader
(path and preload flag) and the stim-channel event scanner (recording and
stim-channel name list). -/
structure MneApi where
  read_raw_egi : String → Bool → RawData
  find_events : RawData → List String → List (Nat × Nat × Nat)

/-- Model of raw.save to a fif file followed by mne.io.read_raw_fif with
preload: the recording content is preserved and the copy is fully loaded in
memory. -/
def fifRoundTrip (raw : RawData) : RawData :=
  { raw with preloaded := true }

/-- Model of raw.pick_types with eeg picked and stim dropped: keep exactly
the EEG channels that are not stim channels. -/
def pick_types_eeg (raw : RawData) : RawData :=
  { raw with chs := raw.chs.filter (fun c => c.isEEG && !c.isStim) }

/-- Model of raw.rename_channels with a one-entry mapping: every channel
bearing the old name takes the new name. -/
def rename_channels (raw : RawData) (old new : String) : RawData :=
  { raw with
    chs := raw.chs.map (fun c => if c.name = old then { c with name := new } else c) }

/-- The import callback egi_import_fct (usage.py lines 95-115): read the EGI
recording with preload, scan events on the hard-coded stim channel list
containing only STI 014, keep the event_id of the original recording, pass
the recording through a temporary fif file, keep only non-stim EEG channels,
rename E129 to Cz, and return the recording with the events and event_id. -/
def egi_import_fct (api : MneApi) (path_in : String) (stim_channel : String) :
    RawData × List (Nat × Nat × Nat) × List (String × Nat) :=
  let raw := api.read_raw_egi path_in true
  let events := api.find_events raw ["STI 014"]
  let event_id := raw.event_id
  let raw2 := fifRoundTrip raw
  let raw3 := rename_channels (pick_types_eeg raw2) "E129" "Cz"
  (raw3, events, event_id)

/-- C8: the callback returns a raw object whose channels are exactly the
non-stim EEG channels of the input recording with E129 renamed to Cz,
together with the events scanned from the original recording and the
original recording's event_id mapping, both taken before the channel
selection. -/
theorem egi_import_fct_output (api : MneApi) (path_in stim_channel : String) :
    (egi_import_fct api path_in stim_channel).1.chs =
      ((api.read_raw_egi path_in true).chs.filter
        (fun c => c.isEEG && !c.isStim)).map
        (fun c => if c.name = "E129" then { c with name := "Cz" } else c) ∧
    (egi_import_fct api path_in stim_channel).2.1 =
      api.find_events (api.read_raw_egi path_in true) ["STI 014"] ∧
    (egi_import_fct api path_in stim_channel).2.2 =
      (api.read_raw_egi path_in true).event_id :=
  ⟨rfl, rfl, rfl⟩

/-- C9: the stim_channel parameter of the callback is dead: the hard-coded
list containing STI 014 drives event detection, so any two values of the
parameter produce the identical result triple. -/
theorem egi_import_fct_ignores_stim_channel (api : MneApi) (path_in : String)
    (s1 s2 : String) :
    egi_import_fct api path_in s1 = egi_import_fct api path_in s2 :=
  rfl

/-! ### run_dataset and convert_dataset_to_bids

Neither function's implementation is part of the excerpt; the tutorial prose
and the spec describe their behaviour, so both are modelled from those
words. -/

/-- Modelled from the spec: pipeline.run_dataset is missing from the
excerpt; the tutorial states that it "essentially loads one raw instance
after another from the BIDS recordings specified in bids_paths and calls
pipeline.run(raw) with these raw objects".  The pipeline state, the raw
type, the loader, and run are abstract. -/
def run_dataset {Path Raw St : Type} (load : Path → Raw) (run : St → Raw → St) :
    St → List Path → St
  | s, [] => s
  | s, p :: ps => run_dataset load run (run s (load p)) ps

/-- The iteration the spec describes: walk the list in order, load each
recording, and call run on each loaded raw object in turn. -/
def run_on_each_loaded {Path Raw St : Type} (load : Path → Raw)
    (run : St → Raw → St) (s : St) (ps : List Path) : St :=
  ps.foldl (fun st p => run st (load p)) s

/-- C3: for every list of dataset-path descriptors, run_dataset is the
in-order iteration that loads each recording and calls run on each loaded
raw object. -/
theorem run_dataset_eq_run_on_each_loaded {Path Raw St : Type}
    (load : Path → Raw) (run : St → Raw → St) (s : St) (ps : List Path) :
    run_dataset load run s ps = run_on_each_loaded load run s ps := by
  induction ps generalizing s with
  | nil => rfl
  | cons p ps ih => simpa [run_dataset, run_on_each_loaded] using ih (run s (load p))

/-- Modelled from the spec: ll.bids.convert_dataset_to_bids is missing from
the excerpt; the tutorial calls it with an import callback, an import-record
table, and a path-record table of equal lengths, and receives the bids paths
of the converted recordings.  Each import record is consumed by the
callback, paired positionally with the path record of the same index, and
yields the bids path where that recording is written. -/
def convert_dataset_to_bids {A B RB P : Type}
    (import_fct : A → RB) (write_bids : RB → B → Bool → P)
    (import_args : List A) (bids_path_args : List B) (overwrite : Bool) :
    List P :=
  List.zipWith (fun ia pa => write_bids (import_fct ia) pa overwrite) import_args
    bids_path_args

/-- C10: at both call sites of the script the two record tables have the
same number of records (in memory, and after the CSV round-trip), and the
conversion pairs the tables positionally: with equally long tables it yields
exactly one bids path per record pair, the i-th output coming from the
i-th import record and the i-th path record. -/
theorem convert_positional_pairing :
    importArgsRecords.length = bidsPathArgsRecords.length ∧
    (readRecords (writeRecords importArgsRecords)).length =
      (readRecords (writeRecords bidsPathArgsRecords)).length ∧
    ∀ {A B RB P : Type} (f : A → RB) (w : RB → B → Bool → P) (o : Bool)
      (as : List A) (bs : List B), as.length = bs.length →
      (convert_dataset_to_bids f w as bs o).length = as.length ∧
      ∀ i : Nat, (convert_dataset_to_bids f w as bs o)[i]? =
        (as[i]?).bind (fun a => (bs[i]?).map (fun b => w (f a) b o)) := by
  refine ⟨by decide, by decide, ?_⟩
  intro A B RB P f w o as bs hlen
  constructor
  · simp [convert_dataset_to_bids, hlen]
  · intro i
    rw [convert_dataset_to_bids, List.getElem?_zipWith']
    cases h : as[i]? <;> simp [h]

/-- Witness for C10: the positional pairing law evaluated on the script's
own record tables. -/
theorem convert_positional_pairing_witness :
    (convert_dataset_to_bids (fun a : ParamRecord => a)
      (fun r (b : ParamRecord) (_ : Bool) => (r, b))
      importArgsRecords bidsPathArgsRecords true).length = 2 := by
  have h := (convert_positional_pairing).2.2 (fun a : ParamRecord => a)
    (fun r (b : ParamRecord) (_ : Bool) => (r, b)) true
    importArgsRecords bidsPathArgsRecords (by decide)
  rw [h.1]
  decide

end PyLossless
